import Mathlib

/-!
Verification of the multi-agent orchestration engine
(`src/0X-multi-agent-orchestration/src/orchestrator/langgraph_orchestrator.py`
together with the Research / Analysis / Action agents it drives).

The Python code is shallowly embedded: result dictionaries become structures
whose fields are exactly the keys the orchestration layer observes, node
handlers become pure functions on an explicit `OrchState`, and the LangGraph
graph (`_build_workflow`) becomes a small-step interpreter `step` over
configurations, parameterised by an environment that supplies the outcome of
every agent invocation (a returned result dictionary, or a raised exception
caught at the node boundary).  Wall-clock fields (`start_time`, `end_time`,
`total_duration`, `timestamp`) and the per-instance caches are elided: lines
of the source that only write those fields are dropped, nothing else is.
-/

/-- The fields of an agent result dictionary observed by the orchestrator:
`.get("status")` and `.get("error")`.  A Python value of `None` / a missing
key is `none`. -/
structure ResMap where
  status : Option String
  error : Option String
  deriving Repr, DecidableEq

/-- `state.get(slot, {}).get("status")`: a missing result slot reads as the
empty dict, whose `"status"` lookup gives `None`. -/
def getStatus (o : Option ResMap) : Option String :=
  match o with
  | none => none
  | some r => r.status

/-- Free-form `user_input` options; `none` models a missing key, so dict
`.get(key, default)` reads become `getD` at each use site. -/
structure UserInput where
  urls : Option (List String)
  search_terms : Option (List String)
  max_sources : Option Nat
  analysis_type : Option String
  focus_areas : Option (List String)
  deriving Repr, DecidableEq

/-- The flattened final output (`_prepare_final_output`); of the
`workflow_metadata` block we keep the deterministic fields the spec's claims
observe (`steps_executed`, `retry_count`).  `duration_seconds` is wall-clock
and `agents_used` is a Python `set` whose iteration order is unspecified. -/
structure FinalOutput where
  query : String
  steps_executed : List String
  retry_count : Nat
  deriving Repr, DecidableEq

/-- `OrchestratorState` (the TypedDict), with the timing fields elided. -/
structure OrchState where
  original_query : String
  user_input : UserInput
  current_step : String
  step_history : List String
  research_results : Option ResMap
  analysis_results : Option ResMap
  action_results : Option ResMap
  next_agent : Option String
  retry_count : Nat
  max_retries : Nat
  final_output : Option FinalOutput
  deriving Repr, DecidableEq

/-- `_coordinator_node`: recompute `next_agent` (and possibly bump
`retry_count`) from `current_step`, `step_history`, `retry_count` and
`max_retries`, then mark the step as `"coordinated"`. -/
def coordinator_node (s : OrchState) : OrchState :=
  let current_step := s.current_step
  let step_history := s.step_history
  let s1 :=
    if current_step = "start" then
      { s with next_agent := some "research" }
    else if current_step = "research_completed" ∧ "analysis" ∉ step_history then
      { s with next_agent := some "analysis" }
    else if current_step = "analysis_completed" ∧ "action" ∉ step_history then
      { s with next_agent := some "action" }
    else if current_step ∈ ["research_failed", "analysis_failed", "action_failed"] then
      if s.retry_count < s.max_retries then
        { s with
          retry_count := s.retry_count + 1,
          next_agent :=
            if current_step = "research_failed" then some "research"
            else if current_step = "analysis_failed" then some "analysis"
            else some "action" }
      else
        { s with next_agent := some "end" }
    else
      { s with next_agent := some "end" }
  { s1 with current_step := "coordinated" }

/-- `_route_from_coordinator`: `state.get("next_agent", "end")`.  On every
reachable state the coordinator has just written `next_agent`, so the
default only covers the missing-key case. -/
def route_from_coordinator (s : OrchState) : String :=
  s.next_agent.getD "end"

/-- `_route_from_research`. -/
def route_from_research (s : OrchState) : String :=
  if getStatus s.research_results = some "failed" then "coordinator" else "analysis"

/-- `_route_from_analysis`. -/
def route_from_analysis (s : OrchState) : String :=
  if getStatus s.analysis_results = some "failed" then "coordinator" else "action"

/-- `_route_from_action`: action is always the final step. -/
def route_from_action (_ : OrchState) : String := "end"

/-- `_determine_success`: all three required steps in the history and no
result slot carrying `status == "failed"`. -/
def determine_success (s : OrchState) : Bool :=
  (["research", "analysis", "action"].all (fun st => s.step_history.contains st)) &&
  !(getStatus s.research_results == some "failed") &&
  !(getStatus s.analysis_results == some "failed") &&
  !(getStatus s.action_results == some "failed")

/-- `_prepare_final_output` (deterministic fields). -/
def prepare_final_output (s : OrchState) : FinalOutput :=
  { query := s.original_query
    steps_executed := s.step_history
    retry_count := s.retry_count }

/-- `_finalizer_node` minus wall-clock bookkeeping: store the final output.
(The execution-history append is modelled in the interpreter, which owns the
orchestrator-level history.) -/
def finalizer_node (s : OrchState) : OrchState :=
  { s with final_output := some (prepare_final_output s) }

/-- One entry of `self.execution_history` (deterministic fields). -/
structure HistEntry where
  query : String
  steps_executed : List String
  success : Bool
  deriving Repr, DecidableEq

/-- Outcome of one agent `process(...)` call as seen by its node handler:
either the returned result dictionary, or an exception escaping `process`
(caught by the node's `except` clause). -/
inductive AgentOutcome where
  | ok (r : ResMap)
  | exn (e : String)
  deriving Repr, DecidableEq

/-- `_research_node`: on a normal return record the result, mark
`research_completed` and append to the history; on an exception record a
failed result and mark `research_failed` (no history append). -/
def research_node (out : AgentOutcome) (s : OrchState) : OrchState :=
  match out with
  | .ok r =>
      { s with
        research_results := some r
        current_step := "research_completed"
        step_history := s.step_history ++ ["research"] }
  | .exn e =>
      { s with
        research_results := some { status := some "failed", error := some e }
        current_step := "research_failed" }

/-- `_analysis_node`. -/
def analysis_node (out : AgentOutcome) (s : OrchState) : OrchState :=
  match out with
  | .ok r =>
      { s with
        analysis_results := some r
        current_step := "analysis_completed"
        step_history := s.step_history ++ ["analysis"] }
  | .exn e =>
      { s with
        analysis_results := some { status := some "failed", error := some e }
        current_step := "analysis_failed" }

/-- `_action_node`. -/
def action_node (out : AgentOutcome) (s : OrchState) : OrchState :=
  match out with
  | .ok r =>
      { s with
        action_results := some r
        current_step := "action_completed"
        step_history := s.step_history ++ ["action"] }
  | .exn e =>
      { s with
        action_results := some { status := some "failed", error := some e }
        current_step := "action_failed" }

/-- Graph node currently scheduled by the compiled LangGraph app. -/
inductive Loc where
  | coordinator
  | research
  | analysis
  | action
  | finalizer
  | done
  deriving Repr, DecidableEq

/-- A configuration of the compiled workflow: the threaded state, the node
about to run, per-agent invocation counters (used to index the environment
and to count node invocations), and the execution-history entry appended by
the finalizer. -/
structure Config where
  s : OrchState
  loc : Loc
  rCount : Nat
  aCount : Nat
  cCount : Nat
  entry : Option HistEntry
  deriving Repr, DecidableEq

/-- Environment: the outcome of the n-th invocation of each agent's
`process`.  Quantifying over environments quantifies over every possible
behaviour of the three agents (and of their collaborators). -/
structure Env where
  research : Nat → AgentOutcome
  analysis : Nat → AgentOutcome
  action : Nat → AgentOutcome

/-- One transition of the compiled graph: run the scheduled node on the
state, then follow the node's conditional edge (`_build_workflow`). -/
def step (env : Env) (c : Config) : Config :=
  match c.loc with
  | .coordinator =>
      let s := coordinator_node c.s
      let l :=
        match route_from_coordinator s with
        | "research" => Loc.research
        | "analysis" => Loc.analysis
        | "action" => Loc.action
        | _ => Loc.finalizer
      { c with s := s, loc := l }
  | .research =>
      let s := research_node (env.research c.rCount) c.s
      let l :=
        match route_from_research s with
        | "coordinator" => Loc.coordinator
        | _ => Loc.analysis
      { c with s := s, loc := l, rCount := c.rCount + 1 }
  | .analysis =>
      let s := analysis_node (env.analysis c.aCount) c.s
      let l :=
        match route_from_analysis s with
        | "coordinator" => Loc.coordinator
        | _ => Loc.action
      { c with s := s, loc := l, aCount := c.aCount + 1 }
  | .action =>
      let s := action_node (env.action c.cCount) c.s
      { c with s := s, loc := Loc.finalizer, cCount := c.cCount + 1 }
  | .finalizer =>
      let s := finalizer_node c.s
      { c with
        s := s
        loc := Loc.done
        entry := some
          { query := c.s.original_query
            steps_executed := c.s.step_history
            success := determine_success c.s } }
  | .done => c

/-- Iterate the graph for `fuel` transitions. -/
def run (env : Env) : Nat → Config → Config
  | 0, c => c
  | n + 1, c => run env n (step env c)

/-- The initial state built by `execute` (with `max_retries` generalised
from the hard-coded `2` to a parameter `N`). -/
def initState (query : String) (user_input : UserInput) (N : Nat) : OrchState :=
  { original_query := query
    user_input := user_input
    current_step := "start"
    step_history := []
    research_results := none
    analysis_results := none
    action_results := none
    next_agent := none
    retry_count := 0
    max_retries := N
    final_output := none }

/-- Execution starts at the graph entry point, the coordinator. -/
def initConfig (query : String) (user_input : UserInput) (N : Nat) : Config :=
  { s := initState query user_input N
    loc := Loc.coordinator
    rCount := 0
    aCount := 0
    cCount := 0
    entry := none }

/-- The `current_step` enum of the data model. -/
def stepEnum : List String :=
  ["start", "research_completed", "research_failed", "analysis_completed",
   "analysis_failed", "action_completed", "action_failed", "coordinated"]

/-- "`current_step` ends in `_failed`": its last seven characters are
`_failed`. -/
def stepEndsInFailed (cs : String) : Bool :=
  cs.data.reverse.take 7 == "_failed".data.reverse

/-- "The failed step's agent": the step name with the `_failed` suffix
stripped. -/
def stripFailedSuffix (cs : String) : String :=
  ⟨cs.data.take (cs.data.length - 7)⟩

/-- The spec's five routing rules, written from the spec's own words
(rule 4 tests `ends in _failed` and re-routes to "the failed step's agent",
obtained by stripping the `_failed` suffix). -/
def coordinatorSpecNext (current_step : String) (hist : List String)
    (retry max_r : Nat) : String :=
  if current_step = "start" then "research"
  else if current_step = "research_completed" ∧ "analysis" ∉ hist then "analysis"
  else if current_step = "analysis_completed" ∧ "action" ∉ hist then "action"
  else if stepEndsInFailed current_step then
    if retry < max_r then stripFailedSuffix current_step else "end"
  else "end"

/-- The spec's retry-count update: rule 4 increments the counter exactly when
a `_failed` step still has retry budget. -/
def coordinatorSpecRetry (current_step : String) (retry max_r : Nat) : Nat :=
  if ¬ (current_step = "start") ∧
     ¬ (current_step = "research_completed") ∧
     ¬ (current_step = "analysis_completed") ∧
     stepEndsInFailed current_step ∧ retry < max_r
  then retry + 1 else retry

theorem coordinator_node_next_agent (s : OrchState) :
    (coordinator_node s).next_agent =
      (if s.current_step = "start" then some "research"
       else if s.current_step = "research_completed" ∧ "analysis" ∉ s.step_history then
         some "analysis"
       else if s.current_step = "analysis_completed" ∧ "action" ∉ s.step_history then
         some "action"
       else if s.current_step ∈ ["research_failed", "analysis_failed", "action_failed"] then
         if s.retry_count < s.max_retries then
           if s.current_step = "research_failed" then some "research"
           else if s.current_step = "analysis_failed" then some "analysis"
           else some "action"
         else some "end"
       else some "end") := by
  simp only [coordinator_node]
  split_ifs <;> rfl

theorem coordinator_node_retry (s : OrchState) :
    (coordinator_node s).retry_count =
      (if ¬ s.current_step = "start" ∧
          ¬ (s.current_step = "research_completed" ∧ "analysis" ∉ s.step_history) ∧
          ¬ (s.current_step = "analysis_completed" ∧ "action" ∉ s.step_history) ∧
          s.current_step ∈ ["research_failed", "analysis_failed", "action_failed"] ∧
          s.retry_count < s.max_retries
       then s.retry_count + 1 else s.retry_count) := by
  simp only [coordinator_node]
  split_ifs <;> simp_all

lemma stepEndsInFailed_eval :
    (stepEndsInFailed "start" = false) ∧
    (stepEndsInFailed "research_completed" = false) ∧
    (stepEndsInFailed "research_failed" = true) ∧
    (stepEndsInFailed "analysis_completed" = false) ∧
    (stepEndsInFailed "analysis_failed" = true) ∧
    (stepEndsInFailed "action_completed" = false) ∧
    (stepEndsInFailed "action_failed" = true) ∧
    (stepEndsInFailed "coordinated" = false) ∧
    (stripFailedSuffix "research_failed" = "research") ∧
    (stripFailedSuffix "analysis_failed" = "analysis") ∧
    (stripFailedSuffix "action_failed" = "action") := by
  decide

set_option maxHeartbeats 1000000 in
/-- C1: over the `current_step` enum of the data model, the coordinator's
routing decision and retry update agree with the spec's five rules. -/
theorem coordinator_follows_spec_rules (s : OrchState)
    (henum : s.current_step ∈ stepEnum) :
    (coordinator_node s).next_agent =
      some (coordinatorSpecNext s.current_step s.step_history s.retry_count s.max_retries) ∧
    (coordinator_node s).retry_count =
      coordinatorSpecRetry s.current_step s.retry_count s.max_retries := by
  obtain ⟨e1, e2, e3, e4, e5, e6, e7, e8, d1, d2, d3⟩ := stepEndsInFailed_eval
  rw [coordinator_node_next_agent, coordinator_node_retry]
  simp only [stepEnum, List.mem_cons, List.not_mem_nil, or_false] at henum
  rcases henum with h | h | h | h | h | h | h | h <;> rw [h] <;>
    simp [coordinatorSpecNext, coordinatorSpecRetry, e1, e2, e3, e4, e5, e6, e7, e8,
      d1, d2, d3, apply_ite]

/-- Witness for C1 at `current_step = "start"`. -/
theorem coordinator_follows_spec_rules_witness :
    (coordinator_node (initState "q" ⟨none, none, none, none, none⟩ 2)).next_agent =
      some (coordinatorSpecNext "start" [] 0 2) ∧
    (coordinator_node (initState "q" ⟨none, none, none, none, none⟩ 2)).retry_count =
      coordinatorSpecRetry "start" 0 2 :=
  coordinator_follows_spec_rules (initState "q" ⟨none, none, none, none, none⟩ 2)
    (by decide)

/-- C9: the coordinator's routing decision is a function of `current_step`,
`step_history`, `retry_count` and `max_retries` alone, so recomputing it on
an unmodified state — even a distinct state object agreeing on those fields —
yields the same `next_agent`. -/
theorem coordinator_routing_idempotent (s t : OrchState)
    (hcs : s.current_step = t.current_step)
    (hh : s.step_history = t.step_history)
    (hr : s.retry_count = t.retry_count)
    (hm : s.max_retries = t.max_retries) :
    (coordinator_node s).next_agent = (coordinator_node t).next_agent ∧
    route_from_coordinator (coordinator_node s) =
      route_from_coordinator (coordinator_node t) := by
  have h : (coordinator_node s).next_agent = (coordinator_node t).next_agent := by
    rw [coordinator_node_next_agent, coordinator_node_next_agent, hcs, hh, hr, hm]
  refine ⟨h, ?_⟩
  unfold route_from_coordinator
  rw [h]

/-- Witness for C9: two states differing everywhere except the four routing
inputs route identically. -/
theorem coordinator_routing_idempotent_witness :
    (coordinator_node (initState "q" ⟨none, none, none, none, none⟩ 2)).next_agent =
      (coordinator_node
        { initState "other" ⟨some [], none, none, none, none⟩ 2 with
            research_results := some { status := some "failed", error := none } }).next_agent ∧
    route_from_coordinator (coordinator_node (initState "q" ⟨none, none, none, none, none⟩ 2)) =
      route_from_coordinator (coordinator_node
        { initState "other" ⟨some [], none, none, none, none⟩ 2 with
            research_results := some { status := some "failed", error := none } }) :=
  coordinator_routing_idempotent _ _ rfl rfl rfl rfl

/-- Total number of agent-node invocations so far (research, analysis and
action combined, counting repeats). -/
def agentInvocations (c : Config) : Nat := c.rCount + c.aCount + c.cCount

/-- Inductive invariant for the retry-budget bound.  Besides the two facts
claimed by the spec (`retry_count ≤ max_retries` and at most
`3 + retry_count` agent invocations), it tracks the phase structure of the
graph: research runs form a prefix of the execution, analysis runs a middle
segment, action runs a suffix, and every re-entry into an agent is paid for
by a retry increment. -/
def RetryInv (c : Config) : Prop :=
  c.s.retry_count ≤ c.s.max_retries ∧
  agentInvocations c ≤ 3 + c.s.retry_count ∧
  (c.s.current_step = "start" → c.loc = Loc.coordinator ∧ agentInvocations c = 0) ∧
  (c.loc = Loc.research →
    c.aCount = 0 ∧ c.cCount = 0 ∧ c.rCount ≤ c.s.retry_count) ∧
  (c.s.current_step = "research_failed" →
    c.aCount = 0 ∧ c.cCount = 0 ∧ c.rCount ≤ 1 + c.s.retry_count) ∧
  (c.s.current_step = "research_completed" →
    c.aCount = 0 ∧ c.cCount = 0 ∧ c.rCount ≤ 1 + c.s.retry_count) ∧
  (c.loc = Loc.analysis →
    c.cCount = 0 ∧ c.rCount + c.aCount ≤ 1 + c.s.retry_count) ∧
  (c.s.current_step = "analysis_failed" →
    c.cCount = 0 ∧ c.rCount + c.aCount ≤ 2 + c.s.retry_count) ∧
  (c.s.current_step = "analysis_completed" →
    c.cCount = 0 ∧ c.rCount + c.aCount ≤ 2 + c.s.retry_count) ∧
  (c.loc = Loc.action → agentInvocations c ≤ 2 + c.s.retry_count) ∧
  (c.s.current_step = "action_failed" → c.loc ≠ Loc.coordinator)

theorem inv_init (query : String) (user_input : UserInput) (N : Nat) :
    RetryInv (initConfig query user_input N) := by
  simp [RetryInv, initConfig, initState, agentInvocations]

theorem inv_step (env : Env) (c : Config) (h : RetryInv c) : RetryInv (step env c) := by
  obtain ⟨I1, I2, I3, I4, I5, I6, I7, I8, I9, I10, I11⟩ := h
  simp only [agentInvocations] at I2
  cases hloc : c.loc with
  | coordinator =>
      by_cases hs : c.s.current_step = "start"
      · obtain ⟨-, hM⟩ := I3 hs
        simp only [agentInvocations] at hM
        simp [step, hloc, coordinator_node, route_from_coordinator, hs, RetryInv,
          agentInvocations]
        omega
      · by_cases hs2 : c.s.current_step = "research_completed" ∧
            "analysis" ∉ c.s.step_history
        · obtain ⟨ha0, hc0, hr⟩ := I6 hs2.1
          simp [step, hloc, coordinator_node, route_from_coordinator, hs, hs2, RetryInv,
            agentInvocations]
          omega
        · by_cases hs3 : c.s.current_step = "analysis_completed" ∧
              "action" ∉ c.s.step_history
          · obtain ⟨hc0, hra⟩ := I9 hs3.1
            simp [step, hloc, coordinator_node, route_from_coordinator, hs, hs2, hs3,
              RetryInv, agentInvocations]
            omega
          · by_cases hs4 : c.s.current_step ∈
                ["research_failed", "analysis_failed", "action_failed"]
            · by_cases hr : c.s.retry_count < c.s.max_retries
              · simp only [List.mem_cons, List.not_mem_nil, or_false] at hs4
                rcases hs4 with h4 | h4 | h4
                · obtain ⟨ha0, hc0, hrc⟩ := I5 h4
                  simp [step, hloc, coordinator_node, route_from_coordinator, hs, hs2,
                    hs3, h4, hr, RetryInv, agentInvocations]
                  omega
                · obtain ⟨hc0, hra⟩ := I8 h4
                  simp [step, hloc, coordinator_node, route_from_coordinator, hs, hs2,
                    hs3, h4, hr, RetryInv, agentInvocations]
                  omega
                · exact absurd hloc (I11 h4)
              · simp [step, hloc, coordinator_node, route_from_coordinator, hs, hs2,
                  hs3, hs4, hr, RetryInv, agentInvocations]
                omega
            · simp [step, hloc, coordinator_node, route_from_coordinator, hs, hs2, hs3,
                hs4, RetryInv, agentInvocations]
              omega
  | research =>
      obtain ⟨ha0, hc0, hr⟩ := I4 hloc
      cases hout : env.research c.rCount with
      | ok r =>
          by_cases hf : r.status = some "failed"
          · simp [step, hloc, hout, research_node, route_from_research, getStatus, hf,
              RetryInv, agentInvocations]
            omega
          · simp [step, hloc, hout, research_node, route_from_research, getStatus, hf,
              RetryInv, agentInvocations]
            omega
      | exn e =>
          simp [step, hloc, hout, research_node, route_from_research, getStatus, RetryInv,
            agentInvocations]
          omega
  | analysis =>
      obtain ⟨hc0, hra⟩ := I7 hloc
      cases hout : env.analysis c.aCount with
      | ok r =>
          by_cases hf : r.status = some "failed"
          · simp [step, hloc, hout, analysis_node, route_from_analysis, getStatus, hf,
              RetryInv, agentInvocations]
            omega
          · simp [step, hloc, hout, analysis_node, route_from_analysis, getStatus, hf,
              RetryInv, agentInvocations]
            omega
      | exn e =>
          simp [step, hloc, hout, analysis_node, route_from_analysis, getStatus, RetryInv,
            agentInvocations]
          omega
  | action =>
      have hM := I10 hloc
      simp only [agentInvocations] at hM
      cases hout : env.action c.cCount with
      | ok r =>
          simp [step, hloc, hout, action_node, RetryInv, agentInvocations]
          omega
      | exn e =>
          simp [step, hloc, hout, action_node, RetryInv, agentInvocations]
          omega
  | finalizer =>
      simp only [step, hloc]
      refine ⟨I1, by simpa [agentInvocations, finalizer_node] using I2, ?_, ?_, ?_, ?_,
        ?_, ?_, ?_, ?_, ?_⟩
      · intro hh
        simp only [finalizer_node] at hh
        have h4 := (I3 hh).1
        rw [hloc] at h4
        simp at h4
      · intro hh
        exact absurd hh (by simp)
      · intro hh
        simp only [finalizer_node] at hh
        simpa [agentInvocations, finalizer_node] using I5 hh
      · intro hh
        simp only [finalizer_node] at hh
        simpa [agentInvocations, finalizer_node] using I6 hh
      · intro hh
        exact absurd hh (by simp)
      · intro hh
        simp only [finalizer_node] at hh
        simpa [finalizer_node] using I8 hh
      · intro hh
        simp only [finalizer_node] at hh
        simpa [finalizer_node] using I9 hh
      · intro hh
        exact absurd hh (by simp)
      · intro hh
        simp
  | done =>
      simp only [step, hloc]
      exact ⟨I1, I2, I3, I4, I5, I6, I7, I8, I9, I10, I11⟩

theorem inv_run (env : Env) (fuel : Nat) (c : Config) (h : RetryInv c) :
    RetryInv (run env fuel c) := by
  induction fuel generalizing c with
  | zero => exact h
  | succ n ih => exact ih _ (inv_step env c h)

theorem step_max_retries (env : Env) (c : Config) :
    (step env c).s.max_retries = c.s.max_retries := by
  cases hloc : c.loc
  case coordinator =>
      simp [step, hloc, coordinator_node]
      split_ifs <;> rfl
  case research =>
      cases hout : env.research c.rCount <;> simp [step, hloc, hout, research_node]
  case analysis =>
      cases hout : env.analysis c.aCount <;> simp [step, hloc, hout, analysis_node]
  case action =>
      cases hout : env.action c.cCount <;> simp [step, hloc, hout, action_node]
  case finalizer =>
      simp [step, hloc, finalizer_node]
  case done =>
      simp [step, hloc]

theorem run_max_retries (env : Env) (fuel : Nat) (c : Config) :
    (run env fuel c).s.max_retries = c.s.max_retries := by
  induction fuel generalizing c with
  | zero => rfl
  | succ n ih => rw [run, ih, step_max_retries]

/-- The empty `user_input` dictionary. -/
def emptyUserInput : UserInput := ⟨none, none, none, none, none⟩

/-- An environment in which every agent invocation raises. -/
def allExnEnv : Env :=
  ⟨fun _ => AgentOutcome.exn "boom", fun _ => AgentOutcome.exn "boom",
   fun _ => AgentOutcome.exn "boom"⟩

/-- C3: in every execution with retry budget `N` — whatever the agents and
their collaborators do — the total number of agent-node invocations is at
most `3 + N`, `retry_count` never exceeds `max_retries`, and a coordinator
visit that sees a `*_failed` step with the budget exhausted routes to
`"end"` regardless of which step failed. -/
theorem agent_invocations_bounded (env : Env) (fuel : Nat) (q : String)
    (ui : UserInput) (N : Nat) :
    agentInvocations (run env fuel (initConfig q ui N)) ≤ 3 + N ∧
    (run env fuel (initConfig q ui N)).s.retry_count ≤ N ∧
    (∀ s : OrchState,
      s.current_step ∈ ["research_failed", "analysis_failed", "action_failed"] →
      ¬ s.retry_count < s.max_retries →
      (coordinator_node s).next_agent = some "end") := by
  have hinv := inv_run env fuel _ (inv_init q ui N)
  have hmax : (run env fuel (initConfig q ui N)).s.max_retries = N := by
    rw [run_max_retries]
    rfl
  obtain ⟨I1, I2, -⟩ := hinv
  refine ⟨by omega, by omega, ?_⟩
  intro s hmem hr
  rw [coordinator_node_next_agent]
  simp only [List.mem_cons, List.not_mem_nil, or_false] at hmem
  rcases hmem with h | h | h <;> simp [h, hr]

/-- Witness for C3: a coordinator visit at `research_failed` with
`retry_count = max_retries = 2` routes to `"end"`. -/
theorem agent_invocations_bounded_witness :
    (coordinator_node
      { initState "q" emptyUserInput 2 with
          current_step := "research_failed", retry_count := 2 }).next_agent =
      some "end" :=
  (agent_invocations_bounded allExnEnv 0 "q" emptyUserInput 2).2.2
    { initState "q" emptyUserInput 2 with
        current_step := "research_failed", retry_count := 2 }
    (by decide) (by decide)

/-- Inductive invariant for the ordering of `step_history`: the history is
always a block of `"research"` entries, then a block of `"analysis"`
entries, then a block of `"action"` entries, and the graph's phase cannot
move backwards. -/
def phaseInv (c : Config) : Prop :=
  ∃ i j k,
    c.s.step_history =
      List.replicate i "research" ++ List.replicate j "analysis" ++
        List.replicate k "action" ∧
    (c.loc = Loc.research → j = 0 ∧ k = 0) ∧
    (c.s.current_step ∈ ["start", "research_completed", "research_failed"] →
      j = 0 ∧ k = 0) ∧
    (c.loc = Loc.analysis → k = 0) ∧
    (c.s.current_step ∈ ["analysis_completed", "analysis_failed"] → k = 0)

theorem phase_init (query : String) (user_input : UserInput) (N : Nat) :
    phaseInv (initConfig query user_input N) := by
  exact ⟨0, 0, 0, by simp [initConfig, initState], by simp, by simp, by simp, by simp⟩

theorem phase_step (env : Env) (c : Config) (h : phaseInv c) : phaseInv (step env c) := by
  obtain ⟨i, j, k, hh, P1, P2, P3, P4⟩ := h
  cases hloc : c.loc with
  | coordinator =>
      by_cases hs : c.s.current_step = "start"
      · obtain ⟨hj, hk⟩ := P2 (by simp [hs])
        subst hj hk
        refine ⟨i, 0, 0, ?_, ?_, ?_, ?_, ?_⟩ <;>
          simp [step, hloc, coordinator_node, route_from_coordinator, hs] <;>
          simpa using hh
      · by_cases hs2 : c.s.current_step = "research_completed" ∧
            "analysis" ∉ c.s.step_history
        · obtain ⟨hj, hk⟩ := P2 (by simp [hs2.1])
          subst hj hk
          refine ⟨i, 0, 0, ?_, ?_, ?_, ?_, ?_⟩ <;>
            simp [step, hloc, coordinator_node, route_from_coordinator, hs, hs2] <;>
            simpa using hh
        · by_cases hs3 : c.s.current_step = "analysis_completed" ∧
              "action" ∉ c.s.step_history
          · have hk := P4 (by simp [hs3.1])
            subst hk
            refine ⟨i, j, 0, ?_, ?_, ?_, ?_, ?_⟩ <;>
              simp [step, hloc, coordinator_node, route_from_coordinator, hs, hs2, hs3] <;>
              simpa using hh
          · by_cases hs4 : c.s.current_step ∈
                ["research_failed", "analysis_failed", "action_failed"]
            · by_cases hr : c.s.retry_count < c.s.max_retries
              · simp only [List.mem_cons, List.not_mem_nil, or_false] at hs4
                rcases hs4 with h4 | h4 | h4
                · obtain ⟨hj, hk⟩ := P2 (by simp [h4])
                  subst hj hk
                  refine ⟨i, 0, 0, ?_, ?_, ?_, ?_, ?_⟩ <;>
                    simp [step, hloc, coordinator_node, route_from_coordinator, hs, hs2,
                      hs3, h4, hr] <;>
                    simpa using hh
                · have hk := P4 (by simp [h4])
                  subst hk
                  refine ⟨i, j, 0, ?_, ?_, ?_, ?_, ?_⟩ <;>
                    simp [step, hloc, coordinator_node, route_from_coordinator, hs, hs2,
                      hs3, h4, hr] <;>
                    simpa using hh
                · refine ⟨i, j, k, ?_, ?_, ?_, ?_, ?_⟩ <;>
                    simp [step, hloc, coordinator_node, route_from_coordinator, hs, hs2,
                      hs3, h4, hr] <;>
                    simpa using hh
              · refine ⟨i, j, k, ?_, ?_, ?_, ?_, ?_⟩ <;>
                  simp [step, hloc, coordinator_node, route_from_coordinator, hs, hs2,
                    hs3, hs4, hr] <;>
                  simpa using hh
            · refine ⟨i, j, k, ?_, ?_, ?_, ?_, ?_⟩ <;>
                simp [step, hloc, coordinator_node, route_from_coordinator, hs, hs2,
                  hs3, hs4] <;>
                simpa using hh
  | research =>
      obtain ⟨hj, hk⟩ := P1 hloc
      subst hj hk
      cases hout : env.research c.rCount with
      | ok r =>
          by_cases hf : r.status = some "failed" <;>
            refine ⟨i + 1, 0, 0, ?_, ?_, ?_, ?_, ?_⟩ <;>
            simp [step, hloc, hout, research_node, route_from_research, getStatus, hf,
              hh, List.replicate_succ']
      | exn e =>
          refine ⟨i, 0, 0, ?_, ?_, ?_, ?_, ?_⟩ <;>
            simp [step, hloc, hout, research_node, route_from_research, getStatus, hh]
  | analysis =>
      have hk := P3 hloc
      subst hk
      cases hout : env.analysis c.aCount with
      | ok r =>
          by_cases hf : r.status = some "failed" <;>
            refine ⟨i, j + 1, 0, ?_, ?_, ?_, ?_, ?_⟩ <;>
            simp [step, hloc, hout, analysis_node, route_from_analysis, getStatus, hf,
              hh, List.replicate_succ']
      | exn e =>
          refine ⟨i, j, 0, ?_, ?_, ?_, ?_, ?_⟩ <;>
            simp [step, hloc, hout, analysis_node, route_from_analysis, getStatus, hh]
  | action =>
      cases hout : env.action c.cCount with
      | ok r =>
          refine ⟨i, j, k + 1, ?_, ?_, ?_, ?_, ?_⟩ <;>
            simp [step, hloc, hout, action_node, hh, List.replicate_succ']
      | exn e =>
          refine ⟨i, j, k, ?_, ?_, ?_, ?_, ?_⟩ <;>
            simp [step, hloc, hout, action_node, hh]
  | finalizer =>
      refine ⟨i, j, k, ?_, ?_, ?_, ?_, ?_⟩ <;>
        simp [step, hloc, finalizer_node, hh] <;>
        first
        | exact fun hx => P2 (by simp [hx])
        | exact fun hx => P4 (by simp [hx])
        | skip
  | done =>
      simp only [step, hloc]
      exact ⟨i, j, k, hh, P1, P2, P3, P4⟩

theorem phase_run (env : Env) (fuel : Nat) (c : Config) (h : phaseInv c) :
    phaseInv (run env fuel c) := by
  induction fuel generalizing c with
  | zero => exact h
  | succ n ih => exact ih _ (phase_step env c h)

lemma pairwise_replicate_of {α : Type} {r : α → α → Prop} {x : α} (h : r x x) :
    ∀ n, List.Pairwise r (List.replicate n x)
  | 0 => List.Pairwise.nil
  | n + 1 => by
      rw [List.replicate_succ]
      exact List.Pairwise.cons
        (fun y hy => (List.eq_of_mem_replicate hy) ▸ h)
        (pairwise_replicate_of h n)

/-- The precedence order between the three step names: a later entry is
never an earlier phase than an earlier entry. -/
def stepOrder (x y : String) : Prop :=
  ¬ (x = "analysis" ∧ y = "research") ∧
  ¬ (x = "action" ∧ y = "research") ∧
  ¬ (x = "action" ∧ y = "analysis")

lemma shape_pairwise (i j k : Nat) :
    List.Pairwise stepOrder
      (List.replicate i "research" ++ List.replicate j "analysis" ++
        List.replicate k "action") := by
  rw [List.pairwise_append, List.pairwise_append]
  refine ⟨⟨pairwise_replicate_of (by simp [stepOrder]) i,
           pairwise_replicate_of (by simp [stepOrder]) j, ?_⟩,
          pairwise_replicate_of (by simp [stepOrder]) k, ?_⟩
  · intro a ha b hb
    rw [List.eq_of_mem_replicate ha, List.eq_of_mem_replicate hb]
    simp [stepOrder]
  · intro a ha b hb
    rw [List.eq_of_mem_replicate hb]
    rcases List.mem_append.mp ha with h | h <;>
      rw [List.eq_of_mem_replicate h] <;> simp [stepOrder]

/-- C5: in every execution, `step_history` is phase-ordered — for any two
positions `p < q` in the final history, it never happens that position `p`
holds `"analysis"` and position `q` holds `"research"`, nor that `p` holds
`"action"` and `q` holds `"research"` or `"analysis"`.  Equivalently every
`"research"` entry precedes every `"analysis"` entry, which precedes every
`"action"` entry; the graph edges enforce that Research completes before
Analysis runs and Analysis completes before Action runs. -/
theorem step_history_ordered (env : Env) (fuel : Nat) (q : String)
    (ui : UserInput) (N : Nat) :
    List.Pairwise stepOrder (run env fuel (initConfig q ui N)).s.step_history := by
  obtain ⟨i, j, k, hh, -, -, -, -⟩ :=
    phase_run env fuel (initConfig q ui N) (phase_init q ui N)
  rw [hh]
  exact shape_pairwise i j k

lemma coordinator_node_fields (s : OrchState) :
    (coordinator_node s).step_history = s.step_history ∧
    (coordinator_node s).research_results = s.research_results ∧
    (coordinator_node s).analysis_results = s.analysis_results ∧
    (coordinator_node s).action_results = s.action_results ∧
    (coordinator_node s).final_output = s.final_output ∧
    (coordinator_node s).original_query = s.original_query ∧
    (coordinator_node s).current_step = "coordinated" := by
  simp only [coordinator_node]
  split_ifs <;> simp

lemma determine_success_iff (s : OrchState) :
    determine_success s = true ↔
      ("research" ∈ s.step_history ∧ "analysis" ∈ s.step_history ∧
       "action" ∈ s.step_history) ∧
      getStatus s.research_results ≠ some "failed" ∧
      getStatus s.analysis_results ≠ some "failed" ∧
      getStatus s.action_results ≠ some "failed" := by
  simp [determine_success, and_assoc]

/-- C4: (a) the `success` flag computed for the execution-history entry is
`true` iff `"research"`, `"analysis"` and `"action"` all appear in
`step_history` and none of the three result slots carries
`status == "failed"`; (b) retry exhaustion does not abort the workflow —
from a coordinator visit that sees a `*_failed` step with no retry budget
left (so some result slot is failed), two transitions suffice to finalize:
the final output is produced from the partial results and the recorded
entry has `success = false`. -/
theorem finalizer_success_flag :
    (∀ s : OrchState,
      determine_success s = true ↔
        ("research" ∈ s.step_history ∧ "analysis" ∈ s.step_history ∧
         "action" ∈ s.step_history) ∧
        getStatus s.research_results ≠ some "failed" ∧
        getStatus s.analysis_results ≠ some "failed" ∧
        getStatus s.action_results ≠ some "failed") ∧
    (∀ (env : Env) (c : Config),
      c.loc = Loc.coordinator →
      c.s.current_step ∈ ["research_failed", "analysis_failed", "action_failed"] →
      ¬ c.s.retry_count < c.s.max_retries →
      (getStatus c.s.research_results = some "failed" ∨
       getStatus c.s.analysis_results = some "failed" ∨
       getStatus c.s.action_results = some "failed") →
      (run env 2 c).loc = Loc.done ∧
      (run env 2 c).s.final_output =
        some (prepare_final_output (coordinator_node c.s)) ∧
      ∃ e, (run env 2 c).entry = some e ∧ e.success = false) := by
  refine ⟨determine_success_iff, ?_⟩
  intro env c hloc hmem hr hfail
  obtain ⟨F1, F2, F3, F4, F5, F6, F7⟩ := coordinator_node_fields c.s
  have hna : (coordinator_node c.s).next_agent = some "end" := by
    rw [coordinator_node_next_agent]
    simp only [List.mem_cons, List.not_mem_nil, or_false] at hmem
    rcases hmem with h | h | h <;> simp [h, hr]
  have hstep1 : step env c =
      { c with s := coordinator_node c.s, loc := Loc.finalizer } := by
    simp [step, hloc, route_from_coordinator, hna]
  have hsucc : determine_success (coordinator_node c.s) = false := by
    rw [← Bool.not_eq_true]
    rw [determine_success_iff]
    push_neg
    intro hsteps
    rw [F2, F3, F4]
    rcases hfail with h | h | h
    · intro hcon
      exact absurd h hcon
    · intro _ hcon
      exact absurd h hcon
    · intro _ _
      exact h
  rw [show (2 : Nat) = 1 + 1 from rfl, run, run, run, hstep1]
  refine ⟨by simp [step], ?_, ?_⟩
  · simp [step, finalizer_node, prepare_final_output]
  · refine ⟨⟨(coordinator_node c.s).original_query, (coordinator_node c.s).step_history,
      determine_success (coordinator_node c.s)⟩, ?_, ?_⟩
    · simp [step]
    · simpa using hsucc

/-- A concrete exhausted-retry configuration used as witness input. -/
def exhaustedConfig : Config :=
  { s := { initState "q" emptyUserInput 2 with
             current_step := "research_failed"
             research_results := some { status := some "failed", error := some "boom" }
             retry_count := 2 }
    loc := Loc.coordinator
    rCount := 3
    aCount := 0
    cCount := 0
    entry := none }

/-- Witness for C4: both conjuncts applied at concrete inputs. -/
theorem finalizer_success_flag_witness :
    (determine_success (initState "q" emptyUserInput 2) = true ↔
      ("research" ∈ ([] : List String) ∧ "analysis" ∈ ([] : List String) ∧
       "action" ∈ ([] : List String)) ∧
      getStatus none ≠ some "failed" ∧
      getStatus none ≠ some "failed" ∧
      getStatus none ≠ some "failed") ∧
    ((run allExnEnv 2 exhaustedConfig).loc = Loc.done ∧
     (run allExnEnv 2 exhaustedConfig).s.final_output =
       some (prepare_final_output (coordinator_node exhaustedConfig.s)) ∧
     ∃ e, (run allExnEnv 2 exhaustedConfig).entry = some e ∧ e.success = false) :=
  ⟨finalizer_success_flag.1 (initState "q" emptyUserInput 2),
   finalizer_success_flag.2 allExnEnv exhaustedConfig rfl (by decide) (by decide)
     (Or.inl (by decide))⟩

/-- Invariant for the round-trip claim: before finalization `final_output`
is unset, and once set it snapshots exactly the current `step_history`. -/
def outputInv (c : Config) : Prop :=
  (c.loc ≠ Loc.done → c.s.final_output = none) ∧
  (∀ fo, c.s.final_output = some fo → fo.steps_executed = c.s.step_history)

theorem outputInv_step (env : Env) (c : Config) (h : outputInv c) :
    outputInv (step env c) := by
  obtain ⟨O1, O2⟩ := h
  cases hloc : c.loc with
  | coordinator =>
      have hnone : c.s.final_output = none := O1 (by rw [hloc]; simp)
      obtain ⟨F1, F2, F3, F4, F5, F6, F7⟩ := coordinator_node_fields c.s
      constructor
      · intro _
        simp only [step, hloc]
        rw [F5, hnone]
      · intro fo hfo
        simp only [step, hloc] at hfo
        rw [F5, hnone] at hfo
        cases hfo
  | research =>
      have hnone : c.s.final_output = none := O1 (by rw [hloc]; simp)
      cases hout : env.research c.rCount <;>
        exact ⟨fun _ => by simp [step, hloc, hout, research_node, hnone],
               fun fo hfo => by simp [step, hloc, hout, research_node, hnone] at hfo⟩
  | analysis =>
      have hnone : c.s.final_output = none := O1 (by rw [hloc]; simp)
      cases hout : env.analysis c.aCount <;>
        exact ⟨fun _ => by simp [step, hloc, hout, analysis_node, hnone],
               fun fo hfo => by simp [step, hloc, hout, analysis_node, hnone] at hfo⟩
  | action =>
      have hnone : c.s.final_output = none := O1 (by rw [hloc]; simp)
      cases hout : env.action c.cCount <;>
        exact ⟨fun _ => by simp [step, hloc, hout, action_node, hnone],
               fun fo hfo => by simp [step, hloc, hout, action_node, hnone] at hfo⟩
  | finalizer =>
      constructor
      · intro hcon
        simp [step, hloc] at hcon
      · intro fo hfo
        simp only [step, hloc, finalizer_node] at hfo ⊢
        simp at hfo
        rw [← hfo]
        simp [prepare_final_output]
  | done =>
      simp only [step, hloc]
      exact ⟨O1, O2⟩

theorem outputInv_run (env : Env) (fuel : Nat) (c : Config) (h : outputInv c) :
    outputInv (run env fuel c) := by
  induction fuel generalizing c with
  | zero => exact h
  | succ n ih => exact ih _ (outputInv_step env c h)

/-- C6: in every execution, whenever the final output has been produced,
its `workflow_metadata.steps_executed` is exactly the state's
`step_history` — same entries, same order. -/
theorem steps_executed_round_trip (env : Env) (fuel : Nat) (q : String)
    (ui : UserInput) (N : Nat) (fo : FinalOutput)
    (hfo : (run env fuel (initConfig q ui N)).s.final_output = some fo) :
    fo.steps_executed = (run env fuel (initConfig q ui N)).s.step_history := by
  have h := outputInv_run env fuel (initConfig q ui N)
    ⟨fun _ => rfl, fun fo hfo => by simp [initConfig, initState] at hfo⟩
  exact h.2 fo hfo

/-- An environment in which every agent invocation returns a completed
result. -/
def allOkEnv : Env :=
  ⟨fun _ => AgentOutcome.ok { status := some "completed", error := none },
   fun _ => AgentOutcome.ok { status := some "completed", error := none },
   fun _ => AgentOutcome.ok { status := some "completed", error := none }⟩

/-- Witness for C6 on a fully successful six-transition run. -/
theorem steps_executed_round_trip_witness :
    FinalOutput.steps_executed ⟨"q", ["research", "analysis", "action"], 0⟩ =
      (run allOkEnv 6 (initConfig "q" emptyUserInput 2)).s.step_history :=
  steps_executed_round_trip allOkEnv 6 "q" emptyUserInput 2
    ⟨"q", ["research", "analysis", "action"], 0⟩ (by decide)

/-!
Research Agent (`src/multi-agent-orchestration/src/agents/research_agent.py`).

Python string primitives are modelled at the `List Char` level by structural
recursion, with the exact semantics of `str.split`, `str.startswith`,
`str.endswith` and the `in` operator, so that every definition evaluates by
kernel reduction.
-/

namespace ResearchAgent

/-- `s.split("://")` specialised to the scheme separator. -/
def splitOnSchemeSep : List Char → List (List Char)
  | [] => [[]]
  | ':' :: '/' :: '/' :: rest => [] :: splitOnSchemeSep rest
  | x :: xs =>
      match splitOnSchemeSep xs with
      | [] => [[x]]
      | h :: t => (x :: h) :: t

/-- Python `s.split('/')`: empty pieces are preserved. -/
def splitOnSlash : List Char → List (List Char)
  | [] => [[]]
  | '/' :: rest => [] :: splitOnSlash rest
  | x :: xs =>
      match splitOnSlash xs with
      | [] => [[x]]
      | h :: t => (x :: h) :: t

/-- Python `s.startswith(pre)`. -/
def startsWithPy (s pre : String) : Bool :=
  pre.data.isPrefixOf s.data

/-- Python `s.endswith(post)`. -/
def endsWithPy (s post : String) : Bool :=
  post.data.reverse.isPrefixOf s.data.reverse

/-- The components of `urllib.parse.urlparse` consumed by
`_should_scrape_url`: scheme, netloc and path. -/
structure ParsedUrl where
  scheme : String
  netloc : String
  path : String
  deriving Repr, DecidableEq

/-- `urlparse` restricted to absolute URLs of the form
`scheme://netloc/path` without query, fragment or parameters (the scheme is
lower-cased, as `urlparse` does). -/
def urlparse (url : String) : ParsedUrl :=
  match splitOnSchemeSep url.data with
  | [schemePart, rest] =>
      (match splitOnSlash rest with
       | [] => { scheme := ⟨schemePart.map Char.toLower⟩, netloc := "", path := "" }
       | h :: t =>
           { scheme := ⟨schemePart.map Char.toLower⟩
             netloc := ⟨h⟩
             path := if t = [] then "" else ⟨'/' :: List.intercalate ['/'] t⟩ })
  | _ => { scheme := "", netloc := "", path := url }

/-- The content-site host markers of `_should_scrape_url`. -/
def web_domains : List String := ["www.", "blog.", "news.", "article."]

/-- The HTML-like path extensions of `_should_scrape_url`. -/
def web_extensions : List String := [".html", ".htm", ".php", ".asp", ".aspx"]

/-- The body of `_should_scrape_url` after `urlparse`: host marker, then
path extension, then HTTP(S) scheme with a dot-free trailing path
segment. -/
def should_scrape_parsed (p : ParsedUrl) : Bool :=
  if web_domains.any (fun d => startsWithPy p.netloc d) then true
  else if web_extensions.any (fun e => endsWithPy p.path e) then true
  else if (p.scheme = "http" ∨ p.scheme = "https") ∧
      ¬ ((splitOnSlash p.path.data).getLastD []).contains '.' then true
  else false

/-- `_should_scrape_url`. -/
def should_scrape_url (url : String) : Bool :=
  should_scrape_parsed (urlparse url)

end ResearchAgent

/-- C8: the URL classifier scrapes exactly when the host starts with one of
`www.`, `blog.`, `news.`, `article.`, or the path ends with one of
`.html`, `.htm`, `.php`, `.asp`, `.aspx`, or the scheme is http/https and
the trailing path segment has no dot — and every other URL is fetched.  In
particular `https://blog.example.com/post` is scraped and
`https://cdn.example.com/data.json` is fetched. -/
theorem url_classifier_spec :
    (∀ url : String,
      ResearchAgent.should_scrape_url url = true ↔
        (ResearchAgent.startsWithPy (ResearchAgent.urlparse url).netloc "www." ∨
         ResearchAgent.startsWithPy (ResearchAgent.urlparse url).netloc "blog." ∨
         ResearchAgent.startsWithPy (ResearchAgent.urlparse url).netloc "news." ∨
         ResearchAgent.startsWithPy (ResearchAgent.urlparse url).netloc "article." ∨
         ResearchAgent.endsWithPy (ResearchAgent.urlparse url).path ".html" ∨
         ResearchAgent.endsWithPy (ResearchAgent.urlparse url).path ".htm" ∨
         ResearchAgent.endsWithPy (ResearchAgent.urlparse url).path ".php" ∨
         ResearchAgent.endsWithPy (ResearchAgent.urlparse url).path ".asp" ∨
         ResearchAgent.endsWithPy (ResearchAgent.urlparse url).path ".aspx" ∨
         (((ResearchAgent.urlparse url).scheme = "http" ∨
           (ResearchAgent.urlparse url).scheme = "https") ∧
          ¬ ((ResearchAgent.splitOnSlash
                (ResearchAgent.urlparse url).path.data).getLastD []).contains '.'))) ∧
    ResearchAgent.should_scrape_url "https://blog.example.com/post" = true ∧
    ResearchAgent.should_scrape_url "https://cdn.example.com/data.json" = false := by
  refine ⟨?_, by decide, by decide⟩
  intro url
  simp only [ResearchAgent.should_scrape_url, ResearchAgent.should_scrape_parsed,
    ResearchAgent.web_domains, ResearchAgent.web_extensions]
  split_ifs with h1 h2 h3 <;> simp_all [or_assoc] <;> tauto

namespace ResearchAgent

/-- Python slicing `s[:n]`. -/
def pyTake (n : Nat) (s : String) : String := ⟨s.data.take n⟩

/-- One entry of `content_gathered`: a scraped page, a fetched document, or
a per-URL error record. -/
inductive ContentItem where
  | scraped (url title content : String)
  | fetched (url content : String)
  | errorItem (url err : String)
  deriving Repr, DecidableEq

/-- The input dictionary prepared by `_prepare_research_input`. -/
structure ResearchInput where
  query : String
  urls : List String
  search_terms : List String
  max_sources : Nat
  deriving Repr, DecidableEq

/-- One entry of `search_results` (the stored-data payload is opaque). -/
structure SearchEntry where
  term : String
  results : String
  deriving Repr, DecidableEq

/-- The result dictionary built by `process`. -/
structure ResearchResult where
  query : String
  sources_researched : List String
  content_gathered : List ContentItem
  search_results : List SearchEntry
  summary : String
  recommendations : List String
  status : String
  error : Option String
  deriving Repr, DecidableEq

/-- The collaborators `process` awaits: MCP health check, per-URL scrape and
fetch, stored-data search, and the two LLM calls.  `Except.error` models a
raised exception. -/
structure MCPEnv where
  health : Except String Unit
  scrape : String → Except String (String × String)
  fetchOp : String → Except String String
  search : String → Except String String
  llm_summary : Except String String
  llm_suggestions : Except String (List String)

/-- The search-term loop: a raised search aborts the rest of `process` (the
outer `except` marks the partial result failed), and each success appends a
search entry. -/
def runSearches (env : MCPEnv) :
    List String → ResearchResult → Except ResearchResult ResearchResult
  | [], acc => .ok acc
  | t :: ts, acc =>
      match env.search t with
      | .error e => .error { acc with status := "failed", error := some e }
      | .ok r =>
          runSearches env ts
            { acc with search_results := acc.search_results ++ [⟨t, r⟩] }

/-- The per-URL body: classification, then scrape or fetch inside the
per-URL `try`, whose `except` records an error item and never aborts the
batch (a failing URL appends no `sources_researched` entry). -/
def urlStep (env : MCPEnv) (acc : ResearchResult) (url : String) : ResearchResult :=
  if should_scrape_url url then
    match env.scrape url with
    | .ok (title, content) =>
        { acc with
          content_gathered :=
            acc.content_gathered ++ [.scraped url title (pyTake 2000 content)]
          sources_researched := acc.sources_researched ++ [url] }
    | .error e =>
        { acc with content_gathered := acc.content_gathered ++ [.errorItem url e] }
  else
    match env.fetchOp url with
    | .ok content =>
        { acc with
          content_gathered :=
            acc.content_gathered ++ [.fetched url (pyTake 2000 content)]
          sources_researched := acc.sources_researched ++ [url] }
    | .error e =>
        { acc with content_gathered := acc.content_gathered ++ [.errorItem url e] }

/-- `ResearchAgent.process`: fail fast on an empty request; otherwise run the
search loop, the URL loop (limited to `max_sources`), the query-only
research suggestions, and the summary generation, with every exception that
escapes the per-URL handlers caught by the outer handler, which marks the
partial result `failed`.  `process` itself never raises. -/
def process (env : MCPEnv) (input : ResearchInput) : ResearchResult :=
  if input.query = "" ∧ input.urls = [] ∧ input.search_terms = [] then
    { query := input.query, sources_researched := [], content_gathered := []
      search_results := [], summary := "", recommendations := []
      status := "failed"
      error := some "No research query, URLs, or search terms provided" }
  else
    let base : ResearchResult :=
      { query := input.query, sources_researched := [], content_gathered := []
        search_results := [], summary := "", recommendations := []
        status := "completed", error := none }
    match env.health with
    | .error e => { base with status := "failed", error := some e }
    | .ok _ =>
        match runSearches env input.search_terms base with
        | .error aborted => aborted
        | .ok s1 =>
            let s2 := (input.urls.take input.max_sources).foldl (urlStep env) s1
            let s3 : Except ResearchResult ResearchResult :=
              if input.query ≠ "" ∧ input.urls = [] then
                match env.llm_suggestions with
                | .error e => .error { s2 with status := "failed", error := some e }
                | .ok sugg => .ok { s2 with recommendations := sugg }
              else .ok s2
            match s3 with
            | .error aborted => aborted
            | .ok s4 =>
                match env.llm_summary with
                | .error e => { s4 with status := "failed", error := some e }
                | .ok summ => { s4 with summary := summ }

/-- The fields of a research result the orchestration layer observes. -/
def toResMap (r : ResearchResult) : ResMap :=
  { status := some r.status, error := r.error }

end ResearchAgent

/-- `_prepare_research_input`. -/
def prepare_research_input (s : OrchState) : ResearchAgent.ResearchInput :=
  { query := s.original_query
    urls := s.user_input.urls.getD []
    search_terms := s.user_input.search_terms.getD []
    max_sources := s.user_input.max_sources.getD 5 }

/-- Scenario B collaborators: the MCP client raises for every URL operation
(scrape and fetch), while the server is healthy and the LLM calls
succeed. -/
def badUrlMCP : ResearchAgent.MCPEnv :=
  { health := .ok ()
    scrape := fun _ => .error "Connection refused"
    fetchOp := fun _ => .error "Connection refused"
    search := fun _ => .ok "ok"
    llm_summary := .ok "summary text"
    llm_suggestions := .ok [] }

/-- Scenario B `user_input`: `urls=["http://bad.example"]`. -/
def scenarioBInput : UserInput :=
  { urls := some ["http://bad.example"], search_terms := none, max_sources := none
    analysis_type := none, focus_areas := none }

/-- The workflow environment of Scenario B: the research node stores the
result `ResearchAgent.process` computes against `badUrlMCP` (`process`
catches everything, so the node never sees an exception), and analysis and
action complete normally. -/
def scenarioBEnv : Env :=
  { research := fun _ =>
      AgentOutcome.ok (ResearchAgent.toResMap
        (ResearchAgent.process badUrlMCP
          (prepare_research_input (initState "q" scenarioBInput 2))))
    analysis := fun _ => AgentOutcome.ok { status := some "completed", error := none }
    action := fun _ => AgentOutcome.ok { status := some "completed", error := none } }

/-- C2 counterexample: with the Research Collaborator raising for every URL
in `urls=["http://bad.example"]`, Scenario B's claimed behaviour does not
occur: it is not the case that `research_results.status` is `"failed"`
after the research step, nor that the final history repeats `"research"`
`max_retries+1 = 3` times with `retry_count = 2` and a `success=false`
history entry. -/
theorem scenario_b_counterexample :
    ¬ (getStatus
        (run scenarioBEnv 2 (initConfig "q" scenarioBInput 2)).s.research_results =
          some "failed" ∧
       (run scenarioBEnv 8 (initConfig "q" scenarioBInput 2)).s.step_history.count
          "research" = 3 ∧
       (run scenarioBEnv 8 (initConfig "q" scenarioBInput 2)).s.retry_count = 2 ∧
       ∃ e, (run scenarioBEnv 8 (initConfig "q" scenarioBInput 2)).entry = some e ∧
         e.success = false) := by
  decide

/-- C2 amended: per-URL failures are swallowed by the per-URL handler, so
the research result stays `status="completed"` with the failure recorded as
a `type="error"` entry in `content_gathered`; the coordinator performs no
retry (`retry_count` stays 0), the workflow proceeds research → analysis →
action exactly once each, and (analysis and action succeeding) the recorded
entry has `success = true`. -/
theorem scenario_b_amended :
    (ResearchAgent.process badUrlMCP
        (prepare_research_input (initState "q" scenarioBInput 2))).status =
      "completed" ∧
    (ResearchAgent.process badUrlMCP
        (prepare_research_input (initState "q" scenarioBInput 2))).content_gathered =
      [ResearchAgent.ContentItem.errorItem "http://bad.example" "Connection refused"] ∧
    getStatus
      (run scenarioBEnv 2 (initConfig "q" scenarioBInput 2)).s.research_results =
        some "completed" ∧
    (run scenarioBEnv 8 (initConfig "q" scenarioBInput 2)).s.step_history =
      ["research", "analysis", "action"] ∧
    (run scenarioBEnv 8 (initConfig "q" scenarioBInput 2)).s.retry_count = 0 ∧
    (run scenarioBEnv 8 (initConfig "q" scenarioBInput 2)).entry =
      some ⟨"q", ["research", "analysis", "action"], true⟩ := by
  decide

/-!
Analysis Agent (`src/multi-agent-orchestration/src/agents/analysis_agent.py`).

Result fields that hold parsed LLM text and that no orchestration-level
observer reads (`input_summary`, `source_evaluation`, `key_insights`,
`patterns_identified`, `recommendations`, `limitations`, `timestamp`) are
elided; the control flow, the status/error fields, the knowledge-fallback
tag and the locally computed confidence heuristics are embedded in full.
-/

namespace AnalysisAgent

/-- Python `s.strip()`. -/
def pyStrip (s : String) : String :=
  ⟨((s.data.dropWhile Char.isWhitespace).reverse.dropWhile Char.isWhitespace).reverse⟩

/-- One entry of the incoming `content_gathered` list, as the Analysis Agent
reads it: `item.get("content")` and `item.get("type")`. -/
structure AContentItem where
  content : Option String
  ctype : Option String
  deriving Repr, DecidableEq

/-- The `research_data` mapping fields the Analysis Agent reads.  A truthy
(non-empty) dictionary is `some rd`; `None` or `{}` is represented by
`Option.none` at the call site. -/
structure ResearchData where
  query : String
  sources_researched : List String
  content_gathered : List AContentItem
  search_results : List String
  summary : String
  deriving Repr, DecidableEq

/-- `input_data` as prepared by `_prepare_analysis_input`. -/
structure AnalysisInput where
  research_data : Option ResearchData
  analysis_type : String
  focus_areas : List String
  deriving Repr, DecidableEq

/-- The `confidence_scores` sub-dictionary (each key optional). -/
structure ConfidenceScores where
  overall : Option String
  overall_confidence : Option String
  note : Option String
  source_reliability : Option String
  data_completeness : Option String
  analysis_depth : Option String
  deriving Repr, DecidableEq

def ConfidenceScores.empty : ConfidenceScores :=
  ⟨none, none, none, none, none, none⟩

/-- The result dictionary of `process` (observed fields). -/
structure AnalysisResult where
  analysis_type : String
  synthesis : String
  confidence_scores : ConfidenceScores
  status : String
  error : Option String
  deriving Repr, DecidableEq

/-- `any(item.get('content') and len(item.get('content', '').strip()) > 0
for item in content_items)`. -/
def hasContent (rd : ResearchData) : Bool :=
  rd.content_gathered.any fun it =>
    match it.content with
    | some s => s ≠ "" ∧ 0 < (pyStrip s).length
    | none => false

/-- `_calculate_overall_confidence`. -/
def calculate_overall_confidence (rd : ResearchData) : String :=
  if 3 ≤ rd.sources_researched.length ∧ 3 ≤ rd.content_gathered.length then "high"
  else if 2 ≤ rd.sources_researched.length ∨ 2 ≤ rd.content_gathered.length then
    "medium"
  else "low"

/-- `_assess_source_reliability` (`error_count < len(content_gathered)/2`
under real division becomes `2*error_count < len`). -/
def assess_source_reliability (rd : ResearchData) : String :=
  let error_count :=
    (rd.content_gathered.filter (fun it => it.ctype = some "error")).length
  if error_count = 0 ∧ 0 < rd.content_gathered.length then "high"
  else if 2 * error_count < rd.content_gathered.length then "medium"
  else "low"

/-- `_assess_data_completeness`. -/
def assess_data_completeness (rd : ResearchData) : String :=
  let score := (if rd.content_gathered ≠ [] then 1 else 0) +
    (if rd.summary ≠ "" then 1 else 0) + (if rd.search_results ≠ [] then 1 else 0)
  if 3 ≤ score then "high" else if 2 ≤ score then "medium" else "low"

/-- `_assess_confidence` (purely local heuristics, no LLM call). -/
def assess_confidence (rd : ResearchData) : ConfidenceScores :=
  { overall := none
    overall_confidence := some (calculate_overall_confidence rd)
    note := none
    source_reliability := some (assess_source_reliability rd)
    data_completeness := some (assess_data_completeness rd)
    analysis_depth := some "medium" }

/-- `_analyze_from_query`: the knowledge-only fallback.  It catches its own
LLM failure, so it never raises either. -/
def analyze_from_query (resp : Except String String) (query analysis_type : String) :
    AnalysisResult :=
  match resp with
  | .ok r =>
      { analysis_type := analysis_type
        synthesis := r
        confidence_scores :=
          { ConfidenceScores.empty with
              overall := some "medium"
              note := some "Based on training data knowledge" }
        status := "completed"
        error := none }
  | .error e =>
      { analysis_type := ""
        synthesis := ""
        confidence_scores := ConfidenceScores.empty
        status := "failed"
        error := some ("Failed to analyze query: " ++ e) }

/-- The index of the first LLM call after source evaluation: the evaluation
step only invokes the LLM when there is a source or a content item. -/
def comprehensiveIdx (rd : ResearchData) : Nat :=
  if rd.sources_researched = [] ∧ rd.content_gathered = [] then 0 else 1

/-- `AnalysisAgent.process`: fail fast when `research_data` is falsy (absent
or `{}`); take the knowledge fallback when no content item has non-blank
text and a query is present; otherwise run the comprehensive pipeline —
source evaluation (LLM unless there is nothing to evaluate), key insights,
patterns, synthesis, recommendations (all LLM), then the local confidence
heuristics and the limitations LLM call — where any raised collaborator
call is caught and marks the partial result `failed`. -/
def process (llm : Nat → Except String String) (input : AnalysisInput) :
    AnalysisResult :=
  match input.research_data with
  | none =>
      { analysis_type := ""
        synthesis := ""
        confidence_scores := ConfidenceScores.empty
        status := "failed"
        error := some "No research data provided for analysis" }
  | some rd =>
      if ¬ hasContent rd ∧ rd.query ≠ "" then
        analyze_from_query (llm 0) rd.query input.analysis_type
      else
        let acc0 : AnalysisResult :=
          { analysis_type := input.analysis_type
            synthesis := ""
            confidence_scores := ConfidenceScores.empty
            status := "completed"
            error := none }
        match (if rd.sources_researched = [] ∧ rd.content_gathered = [] then
            Except.ok "No sources to evaluate" else llm 0) with
        | .error e => { acc0 with status := "failed", error := some e }
        | .ok _ =>
            let i := comprehensiveIdx rd
            match llm i with
            | .error e => { acc0 with status := "failed", error := some e }
            | .ok _ =>
                match llm (i + 1) with
                | .error e => { acc0 with status := "failed", error := some e }
                | .ok _ =>
                    match llm (i + 2) with
                    | .error e => { acc0 with status := "failed", error := some e }
                    | .ok syn =>
                        let acc1 := { acc0 with synthesis := syn }
                        match llm (i + 3) with
                        | .error e => { acc1 with status := "failed", error := some e }
                        | .ok _ =>
                            let acc2 :=
                              { acc1 with confidence_scores := assess_confidence rd }
                            match llm (i + 4) with
                            | .error e => { acc2 with status := "failed", error := some e }
                            | .ok _ => acc2

end AnalysisAgent

/-- A truthy `research_data` dictionary with no content items and no query
(for instance `{"status": "failed"}`, which is exactly what the orchestrator
passes to Analysis after a failed research attempt). -/
def contentlessRD : AnalysisAgent.ResearchData :=
  { query := "", sources_researched := [], content_gathered := []
    search_results := [], summary := "" }

/-- An LLM collaborator that always answers. -/
def llmAlwaysOk : Nat → Except String String := fun _ => Except.ok "text"

/-- C7 counterexample: a truthy `research_data` with no content items and no
query does NOT make `process` fail — with collaborators answering normally
it runs the comprehensive pipeline and returns `status="completed"` (and no
error), contradicting the claimed `status:"failed"` boundary. -/
theorem analysis_boundary_counterexample :
    contentlessRD.content_gathered = [] ∧ contentlessRD.query = "" ∧
    (AnalysisAgent.process llmAlwaysOk
      { research_data := some contentlessRD, analysis_type := "comprehensive"
        focus_areas := [] }).status = "completed" ∧
    ¬ ((AnalysisAgent.process llmAlwaysOk
      { research_data := some contentlessRD, analysis_type := "comprehensive"
        focus_areas := [] }).status = "failed") := by
  decide

/-- C7 amended: `process` returns `status="failed"` with the explicit
message exactly when `research_data` is falsy (absent or empty); a truthy
`research_data` with no non-blank content and no query is analysed by the
comprehensive pipeline, not by the knowledge fallback (whose tag never
appears), and completes whenever the collaborators answer. -/
theorem analysis_boundary_amended :
    (∀ (llm : Nat → Except String String) (at_ : String) (fa : List String),
      (AnalysisAgent.process llm
        { research_data := none, analysis_type := at_, focus_areas := fa }).status =
          "failed" ∧
      (AnalysisAgent.process llm
        { research_data := none, analysis_type := at_, focus_areas := fa }).error =
          some "No research data provided for analysis") ∧
    (∀ (llm : Nat → Except String String) (rd : AnalysisAgent.ResearchData)
        (at_ : String) (fa : List String),
      rd.query = "" →
      (∀ n, ∃ r, llm n = Except.ok r) →
      (AnalysisAgent.process llm
        { research_data := some rd, analysis_type := at_, focus_areas := fa
          }).confidence_scores.note = none ∧
      (AnalysisAgent.process llm
        { research_data := some rd, analysis_type := at_, focus_areas := fa
          }).status = "completed") := by
  constructor
  · intro llm at_ fa
    exact ⟨rfl, rfl⟩
  · intro llm rd at_ fa hq hok
    obtain ⟨r0, h0⟩ := hok 0
    obtain ⟨r1, h1⟩ := hok 1
    obtain ⟨r2, h2⟩ := hok 2
    obtain ⟨r3, h3⟩ := hok 3
    obtain ⟨r4, h4⟩ := hok 4
    obtain ⟨r5, h5⟩ := hok 5
    by_cases hsc : rd.sources_researched = [] ∧ rd.content_gathered = []
    · simp [AnalysisAgent.process, hq, AnalysisAgent.comprehensiveIdx, hsc,
        h0, h1, h2, h3, h4, AnalysisAgent.assess_confidence]
    · simp [AnalysisAgent.process, hq, AnalysisAgent.comprehensiveIdx, hsc,
        h0, h1, h2, h3, h4, h5, AnalysisAgent.assess_confidence]

/-- Witness for C7's amended theorem at concrete inputs. -/
theorem analysis_boundary_amended_witness :
    ((AnalysisAgent.process llmAlwaysOk
        { research_data := none, analysis_type := "comprehensive"
          focus_areas := [] }).status = "failed" ∧
     (AnalysisAgent.process llmAlwaysOk
        { research_data := none, analysis_type := "comprehensive"
          focus_areas := [] }).error =
        some "No research data provided for analysis") ∧
    ((AnalysisAgent.process llmAlwaysOk
        { research_data := some contentlessRD, analysis_type := "comprehensive"
          focus_areas := [] }).confidence_scores.note = none ∧
     (AnalysisAgent.process llmAlwaysOk
        { research_data := some contentlessRD, analysis_type := "comprehensive"
          focus_areas := [] }).status = "completed") :=
  ⟨analysis_boundary_amended.1 llmAlwaysOk "comprehensive" [],
   analysis_boundary_amended.2 llmAlwaysOk contentlessRD "comprehensive" []
     rfl (fun _ => ⟨"text", rfl⟩)⟩

/-!
Action Agent
(`src/agents/openai/0X_multi_agent_orchestration/src/agents/action_agent.py`),
`_prioritize_actions`.

Python dictionaries are heap objects, so `action.copy()` versus in-place
mutation is observable.  The heap is modelled explicitly: a store (list of
action objects) plus natural-number references; `action_plan` is a list of
references into the store, and `_prioritize_actions` returns the extended
store together with the references of the prioritized copies.
-/

namespace ActionAgent

/-- Python `s.lower()`. -/
def pyLower (s : String) : String := ⟨s.data.map Char.toLower⟩

/-- The urgency assessment returned by `_assess_action_urgency` (its
`urgency_score` key may be absent from the parsed JSON). -/
structure Urgency where
  urgency_level : String
  urgency_score : Option Int
  deriving Repr, DecidableEq

/-- One action dictionary: the `priority` key (optional), the two keys
added by prioritization (absent on freshly generated actions), and the
remaining keys as an opaque payload. -/
structure ActionObj where
  priority : Option String
  priority_score : Option Int
  urgency_assessment : Option Urgency
  payload : String
  deriving Repr, DecidableEq

def dummyAction : ActionObj := ⟨none, none, none, ""⟩

/-- The fixed `priority_scores` mapping with default 2. -/
def priority_score_of (p : String) : Int :=
  if p = "critical" then 4
  else if p = "high" then 3
  else if p = "medium" then 2
  else if p = "low" then 1
  else 2

/-- The loop body on one action: `action_copy = action.copy()`, add
`priority_score` from `action.get("priority", "medium").lower()`, and add
the urgency assessment computed on the original `action`. -/
def copyEnrich (urg : ActionObj → Urgency) (a : ActionObj) : ActionObj :=
  { a with
    priority_score := some (priority_score_of (pyLower (a.priority.getD "medium")))
    urgency_assessment := some (urg a) }

/-- The sort key `(x["priority_score"],
x.get("urgency_assessment", {}).get("urgency_score", 0))`. -/
def keyOf (store : List ActionObj) (r : Nat) : Int × Int :=
  let a := store.getD r dummyAction
  (a.priority_score.getD 0, ((a.urgency_assessment.getD ⟨"", none⟩).urgency_score).getD 0)

/-- Descending lexicographic comparison (`sort(..., reverse=True)` on the
key tuple): `p` may come before `q`. -/
def lexGE (p q : Int × Int) : Bool :=
  (q.1 < p.1) || (p.1 = q.1 && q.2 ≤ p.2)

/-- Reference comparison through the store. -/
def leRef (store : List ActionObj) (a b : Nat) : Bool :=
  lexGE (keyOf store a) (keyOf store b)

/-- `_prioritize_actions` over the explicit heap: empty plans return no
actions; otherwise each action is copied and enriched (fresh references at
the end of the store), the copies are sorted by descending priority then
urgency, and the top 5 are returned. -/
def prioritize_actions (urg : ActionObj → Urgency) (store : List ActionObj)
    (plan : List Nat) : List ActionObj × List Nat :=
  if plan = [] then (store, [])
  else
    let copies := plan.map (fun r => copyEnrich urg (store.getD r dummyAction))
    let newStore := store ++ copies
    let refs := (List.range copies.length).map (fun k => store.length + k)
    (newStore, (refs.mergeSort (leRef newStore)).take 5)

lemma lexGE_trans (a b c : Int × Int) (h1 : lexGE a b = true) (h2 : lexGE b c = true) :
    lexGE a c = true := by
  simp only [lexGE, Bool.or_eq_true, Bool.and_eq_true, decide_eq_true_eq] at h1 h2 ⊢
  omega

lemma lexGE_total (a b : Int × Int) : (lexGE a b || lexGE b a) = true := by
  simp only [lexGE, Bool.or_eq_true, Bool.and_eq_true, decide_eq_true_eq]
  omega

end ActionAgent

/-- C10: `_prioritize_actions` is mutation-free on its input — the store
prefix holding the original `action_plan` entries is returned unchanged, so
every mapping stored in `action_results["action_plan"]` is untouched — and
the returned `priority_actions` are at most 5 fresh references (all beyond
the original store), sorted by descending `(priority_score, urgency_score)`,
each holding an enriched copy (`priority_score` from the fixed mapping, the
urgency assessed on the original entry) of some plan entry. -/
theorem prioritize_actions_frame (urg : ActionAgent.ActionObj → ActionAgent.Urgency)
    (store : List ActionAgent.ActionObj) (plan : List Nat) :
    ((ActionAgent.prioritize_actions urg store plan).1).take store.length = store ∧
    (∀ r ∈ plan, r < store.length →
      ((ActionAgent.prioritize_actions urg store plan).1).getD r ActionAgent.dummyAction =
        store.getD r ActionAgent.dummyAction) ∧
    ((ActionAgent.prioritize_actions urg store plan).2).length ≤ 5 ∧
    (∀ r ∈ (ActionAgent.prioritize_actions urg store plan).2, store.length ≤ r) ∧
    List.Pairwise
      (fun a b =>
        ActionAgent.leRef (ActionAgent.prioritize_actions urg store plan).1 a b = true)
      (ActionAgent.prioritize_actions urg store plan).2 ∧
    (∀ r ∈ (ActionAgent.prioritize_actions urg store plan).2, ∃ p ∈ plan,
      ((ActionAgent.prioritize_actions urg store plan).1).getD r ActionAgent.dummyAction =
        ActionAgent.copyEnrich urg (store.getD p ActionAgent.dummyAction)) := by
  by_cases hp : plan = []
  · simp [ActionAgent.prioritize_actions, hp, List.take_length]
  · have hcop :
        (ActionAgent.prioritize_actions urg store plan).1 =
          store ++ plan.map (fun r =>
            ActionAgent.copyEnrich urg (store.getD r ActionAgent.dummyAction)) := by
      simp [ActionAgent.prioritize_actions, hp]
    have hrefs :
        (ActionAgent.prioritize_actions urg store plan).2 =
          (((List.range (plan.map (fun r =>
              ActionAgent.copyEnrich urg (store.getD r ActionAgent.dummyAction))).length).map
            (fun k => store.length + k)).mergeSort
              (ActionAgent.leRef (store ++ plan.map (fun r =>
                ActionAgent.copyEnrich urg (store.getD r ActionAgent.dummyAction))))).take 5 := by
      simp [ActionAgent.prioritize_actions, hp]
    set copies := plan.map (fun r =>
      ActionAgent.copyEnrich urg (store.getD r ActionAgent.dummyAction)) with hcopies
    have hmemrefs : ∀ r ∈ (ActionAgent.prioritize_actions urg store plan).2,
        ∃ k, k < copies.length ∧ r = store.length + k := by
      intro r hr
      rw [hrefs] at hr
      have hr2 := List.mem_mergeSort.mp (List.mem_of_mem_take hr)
      simp only [List.mem_map, List.mem_range] at hr2
      obtain ⟨k, hk, hkr⟩ := hr2
      exact ⟨k, hk, hkr.symm⟩
    refine ⟨?_, ?_, ?_, ?_, ?_, ?_⟩
    · rw [hcop]
      exact List.take_left store copies
    · intro r _ hlt
      rw [hcop]
      exact List.getD_append store copies ActionAgent.dummyAction r hlt
    · rw [hrefs]
      rw [List.length_take]
      exact inf_le_left
    · intro r hr
      obtain ⟨k, -, hkr⟩ := hmemrefs r hr
      omega
    · rw [hrefs, hcop]
      refine List.Pairwise.sublist (List.take_sublist 5 _) ?_
      refine List.sorted_mergeSort ?_ ?_ _
      · intro a b c h1 h2
        exact ActionAgent.lexGE_trans _ _ _ h1 h2
      · intro a b
        exact ActionAgent.lexGE_total _ _
    · intro r hr
      obtain ⟨k, hk, hkr⟩ := hmemrefs r hr
      have hklt : k < plan.length := by
        rw [hcopies, List.length_map] at hk
        exact hk
      refine ⟨plan[k], List.getElem_mem hklt, ?_⟩
      rw [hcop, hkr]
      rw [List.getD_append_right store copies ActionAgent.dummyAction _ (by omega)]
      have hsub : store.length + k - store.length = k := by omega
      rw [hsub]
      rw [List.getD_eq_getElem copies ActionAgent.dummyAction (by omega)]
      simp only [hcopies, List.getElem_map]

/-- A two-action store used as witness input. -/
def witnessStore : List ActionAgent.ActionObj :=
  [⟨some "low", none, none, "a0"⟩, ⟨some "critical", none, none, "a1"⟩]

/-- Witness for C10: prioritizing the plan `[0, 1]` leaves the stored
original action 0 unchanged. -/
theorem prioritize_actions_frame_witness :
    ((ActionAgent.prioritize_actions (fun _ => ⟨"moderate", some 5⟩) witnessStore
        [0, 1]).1).getD 0 ActionAgent.dummyAction =
      witnessStore.getD 0 ActionAgent.dummyAction :=
  (prioritize_actions_frame (fun _ => ⟨"moderate", some 5⟩) witnessStore [0, 1]).2.1
    0 (by decide) (by decide)
